import Mathlib

/-!
Shallow embedding of `python_caltrain/caltrain.py` (python-caltrain repository).

Conventions of the embedding:
* Python `datetime.date` values are modelled as `Nat` — the number of days since
  the fixed epoch `_BASE_DATE = 1970-01-01`; `date.weekday()` (Monday = 0) is
  `(d + 3) % 7` since 1970-01-01 was a Thursday.  Date comparison is `Nat` order.
* Python `datetime.time` values are modelled as `Time` (hour/minute/second);
  Python compares times lexicographically which, on in-range values, coincides
  with comparison of total seconds (`Time.toSecs`).  Sub-second precision is not
  modelled (no claim involves it).
* Python dicts are modelled as association lists manipulated by `dictInsert`
  (replace-in-place on key collision, append otherwise — Python insertion-order
  semantics) and read by `dlookup` (first, hence unique, binding).
* Fallible Python code (raised exceptions) is modelled with `Except`/`Option`.
* Station latitude/longitude are floating-point display data untouched by every
  query operation; they are left out of the `Station` record.
-/

namespace PyCaltrain

/-- Python `datetime.date.weekday()` for a day count from 1970-01-01 (Monday = 0,
1970-01-01 was a Thursday = 3). -/
def dateWeekday (d : Nat) : Nat := (d + 3) % 7

/-- A wall-clock time of day, mirroring `datetime.time` (no sub-second part). -/
structure Time where
  hour : Nat
  minute : Nat
  second : Nat
deriving DecidableEq, Repr

/-- Seconds since midnight; on in-range values this orders times exactly as
Python's lexicographic `datetime.time` comparison does. -/
def Time.toSecs (t : Time) : Nat := t.hour * 3600 + t.minute * 60 + t.second

/-- The time-of-day lying `n` seconds after midnight (`n < 86400`); this is
`(_BASE_DATE + timedelta(seconds := n)).time()`. -/
def timeOfSecs (n : Nat) : Time := ⟨n / 3600, n % 3600 / 60, n % 60⟩

/-- A `datetime.datetime`: a date (days since epoch) with a time of day. -/
structure DateTime where
  date : Nat
  time : Time
deriving DecidableEq, Repr

/-- `datetime.weekday()` — computed from the date component. -/
def DateTime.weekday (dt : DateTime) : Nat := dateWeekday dt.date

/-! ### `_resolve_time` (caltrain.py lines 57–76) -/

/-- One `c`-separated split step of `str.split`, on a character list. -/
def splitOnChar (sep : Char) : List Char → List (List Char)
  | [] => [[]]
  | c :: cs =>
    if c = sep then [] :: splitOnChar sep cs
    else
      match splitOnChar sep cs with
      | [] => [[c]]
      | p :: ps => (c :: p) :: ps

/-- Digit-folding helper for `parseNatChars`. -/
def parseNatAux : List Char → Nat → Option Nat
  | [], acc => some acc
  | c :: cs, acc =>
    if '0' ≤ c ∧ c ≤ '9' then parseNatAux cs (acc * 10 + (c.toNat - '0'.toNat))
    else none

/-- Python `int(x)` on a (non-negative) digit string: the value, or failure on an
empty or non-digit string. -/
def parseNatChars (l : List Char) : Option Nat :=
  match l with
  | [] => none
  | _ => parseNatAux l 0

/-- Arithmetic core of `_resolve_time` after the three colon-separated fields are
parsed: `day, hour = divmod(hour, 24)`, then
`(_BASE_DATE + timedelta(hours, minutes, seconds)).time()`. -/
def resolveTimeParts (hour minute second : Nat) : Nat × Time :=
  (hour / 24, timeOfSecs ((hour % 24 * 3600 + minute * 60 + second) % 86400))

/-- `_resolve_time(t)`: split the clock string on `":"`, parse the three integer
fields, and resolve hours ≥ 24 into a day offset.  `none` models the exception
Python raises when the string does not have exactly three integer fields. -/
def resolve_time (t : String) : Option (Nat × Time) :=
  match (splitOnChar ':' t.data).map parseNatChars with
  | [some hour, some minute, some second] => some (resolveTimeParts hour minute second)
  | _ => none

/-! ### Stops and `_resolve_duration` (caltrain.py lines 79–100) -/

/-- The `Stop` namedtuple. -/
structure Stop where
  arrival : Time
  arrival_day : Nat
  departure : Time
  departure_day : Nat
  stop_number : Nat
deriving DecidableEq, Repr

/-- `_BASE_DATE + timedelta(hours := t.hour, minutes := t.minute,
seconds := t.second, days := d)`, in seconds from the epoch. -/
def instantOf (d : Nat) (t : Time) : Int :=
  (d : Int) * 86400 + (t.hour : Int) * 3600 + (t.minute : Int) * 60 + (t.second : Int)

/-- `_resolve_duration(start, end)` (arguments renamed `s`, `e`; `end` is a Lean
keyword): `end_time - start_time` in seconds, where `start_time` is built from
the start stop's departure time and departure day and `end_time` from the end
stop's arrival time and **departure** day (faithful to the source). -/
def resolve_duration (s e : Stop) : Int :=
  instantOf e.departure_day e.arrival - instantOf s.departure_day s.departure

/-! ### `_sanitize_name` (caltrain.py lines 43–54) -/

/-- Membership in the regex class `[A-Za-z0-9]`; `re.split('[^A-Za-z0-9]', name)`
followed by `''.join` keeps exactly these characters. -/
def isAlnumAscii (c : Char) : Bool :=
  ('A' ≤ c && c ≤ 'Z') || ('a' ≤ c && c ≤ 'z') || ('0' ≤ c && c ≤ '9')

/-- Python `str.replace('station', '')` on a character list: left-to-right,
non-overlapping removal of every occurrence of `"station"`. -/
def stripStationWord : List Char → List Char
  | 's' :: 't' :: 'a' :: 't' :: 'i' :: 'o' :: 'n' :: rest => stripStationWord rest
  | c :: cs => c :: stripStationWord cs
  | [] => []

/-- Python `str.strip()`: drop leading and trailing whitespace. -/
def stripEnds (l : List Char) : List Char :=
  ((l.dropWhile Char.isWhitespace).reverse.dropWhile Char.isWhitespace).reverse

/-- `_sanitize_name(name)`:
`''.join(re.split('[^A-Za-z0-9]', name)).lower().replace('station', '').strip()`. -/
def sanitize (name : String) : String :=
  ⟨stripEnds (stripStationWord ((name.data.filter isAlnumAscii).map Char.toLower))⟩

/-! ### Python-dict association lists -/

/-- First value bound to `k`, if any (Python `d[k]` / `k in d`). -/
def dlookup {α β : Type} [DecidableEq α] (k : α) : List (α × β) → Option β
  | [] => none
  | (k', v) :: rest => if k' = k then some v else dlookup k rest

/-- Python `d[k] = v`: replace the binding in place if `k` is present, append
otherwise (insertion-order dict semantics). -/
def dictInsert {α β : Type} [DecidableEq α] (k : α) (v : β) : List (α × β) → List (α × β)
  | [] => [(k, v)]
  | (k', v') :: rest => if k' = k then (k, v) :: rest else (k', v') :: dictInsert k v rest

/-! ### The data model (namedtuples and enums of caltrain.py) -/

/-- The `ServiceWindow` namedtuple.  `end` is a Lean keyword, so the field is
`endDate`.  The Python `days` set of weekday indices is carried as a list. -/
structure ServiceWindow where
  id : String
  name : String
  start : Nat
  endDate : Nat
  days : List Nat
  removed : Bool
deriving DecidableEq, Repr

/-- The `Direction` enum. -/
inductive Direction
  | north
  | south
deriving DecidableEq, Repr

/-- The `TransitType` enum. -/
inductive TransitType
  | baby_bullet
  | limited
  | local
  | tamien_sanjose
  | special
  | bus_bridge
deriving DecidableEq, Repr

/-- The `Station` namedtuple (latitude/longitude omitted, see header). -/
structure Station where
  name : String
  zone : String
deriving DecidableEq, Repr

/-- The `Train` namedtuple; `stops` is the dict from station display name to
`Stop`. -/
structure Train where
  name : String
  kind : TransitType
  direction : Direction
  stops : List (String × Stop)
  service_window : ServiceWindow
deriving DecidableEq, Repr

/-- The `Trip` namedtuple. -/
structure Trip where
  departure : Time
  arrival : Time
  duration : Int
  train : Train
deriving DecidableEq, Repr

/-- The parts of the loaded `Caltrain` object that queries read:
`self.trains` (trip id → Train), `self._unambiguous_stations` (compact
sanitized key → Station) and `self._fares` ((origin zone, destination zone) →
(units, subunits)). -/
structure Model where
  trains : List (String × Train)
  unambiguousStations : List (String × Station)
  fares : List ((String × String) × (Nat × Nat))
deriving Repr

/-- The exceptions a query can raise: `UnknownStationError(name)` from
`get_station`, and the dict `KeyError` from the fare lookup. -/
inductive QueryError
  | unknownStation (name : String)
  | keyError
deriving DecidableEq, Repr

/-! ### The alias table (caltrain.py lines 112–138) -/

/-- `_ALIAS_MAP_RAW`, with singleton values written as one-element lists. -/
def aliasMapRaw : List (String × List String) :=
  [ ("SAN FRANCISCO", ["SF", "SAN FRAN"]),
    ("SOUTH SAN FRANCISCO",
      ["S SAN FRANCISCO", "SOUTH SF", "SOUTH SAN FRAN", "S SAN FRAN",
       "S SAN FRANCISCO", "S SF", "SO SF", "SO SAN FRANCISCO", "SO SAN FRAN"]),
    ("22ND STREET",
      ["TWENTY-SECOND STREET", "TWENTY-SECOND ST", "22ND ST", "22ND",
       "TWENTY-SECOND", "22"]),
    ("MOUNTAIN VIEW", ["MT VIEW"]),
    ("CALIFORNIA AVENUE",
      ["CAL AVE", "CALIFORNIA", "CALIFORNIA AVE", "CAL", "CAL AV",
       "CALIFORNIA AV"]),
    ("REDWOOD CITY", ["REDWOOD"]),
    ("SAN JOSE DIRIDON", ["DIRIDON", "SAN JOSE", "SJ DIRIDON", "SJ"]),
    ("COLLEGE PARK", ["COLLEGE"]),
    ("BLOSSOM HILL", ["BLOSSOM"]),
    ("MORGAN HILL", ["MORGAN"]),
    ("HAYWARD PARK", ["HAYWARD"]),
    ("MENLO PARK", ["MENLO"]) ]

/-- `_ALIAS_MAP`: for each raw entry `(k, v)` and each `x` in `v`, bind
`sanitize x ↦ sanitize k`. -/
def aliasMap : List (String × String) :=
  aliasMapRaw.foldl
    (fun m kv => kv.2.foldl (fun m' x => dictInsert (sanitize x) (sanitize kv.1) m') m)
    []

/-- The alias step of `get_station`:
`sanitized = _ALIAS_MAP.get(sanitized, sanitized)`. -/
def aliasResolve (s : String) : String := (dlookup s aliasMap).getD s

/-! ### Queries (caltrain.py lines 334–533) -/

/-- `Caltrain.get_station(name)`: sanitize, resolve aliases, then look the key
up among the unambiguous stations; `UnknownStationError(name)` on a miss. -/
def get_station (m : Model) (name : String) : Except QueryError Station :=
  match dlookup (aliasResolve (sanitize name)) m.unambiguousStations with
  | some station => .ok station
  | none => .error (.unknownStation name)

/-- A query endpoint: either an already-resolved `Station` or a raw name
(`isinstance(a, Station)` dispatch in the source). -/
abbrev StationArg : Type := Station ⊕ String

/-- `a = self.get_station(a) if not isinstance(a, Station) else a`. -/
def resolveArg (m : Model) (a : StationArg) : Except QueryError Station :=
  match a with
  | .inl s => .ok s
  | .inr name => get_station m name

/-- The service-window filter as written inline in `next_trips`
(caltrain.py lines 436–446): `true` iff the two `continue`s are not taken. -/
def calendarKeepTrips (sw : ServiceWindow) (after : DateTime) : Bool :=
  let in_time_window :=
    (decide (sw.start ≤ after.date) && decide (after.date ≤ sw.endDate))
      && sw.days.contains after.weekday
  if sw.removed then !in_time_window else in_time_window

/-- The service-window filter as written inline in `next_trains`
(caltrain.py lines 499–509); the source duplicates the code verbatim. -/
def calendarKeepTrains (sw : ServiceWindow) (after : DateTime) : Bool :=
  let in_time_window :=
    (decide (sw.start ≤ after.date) && decide (after.date ≤ sw.endDate))
      && sw.days.contains after.weekday
  if sw.removed then !in_time_window else in_time_window

/-- The service-window filter as written inline in `get_trains`
(caltrain.py lines 377–387); the source duplicates the code verbatim. -/
def calendarKeepGet (sw : ServiceWindow) (after : DateTime) : Bool :=
  let in_time_window :=
    (decide (sw.start ≤ after.date) && decide (after.date ≤ sw.endDate))
      && sw.days.contains after.weekday
  if sw.removed then !in_time_window else in_time_window

/-- `Caltrain.get_trains(name, after)`: every train with the given name whose
service window keeps it on `after`'s date.  The Python `after=None` default
(`datetime.now()`) is applied by the caller here. -/
def get_trains (m : Model) (name : String) (after : DateTime) : List Train :=
  (m.trains.map Prod.snd).filter
    (fun train => (train.name == name) && calendarKeepGet train.service_window after)

/-- The body of the `next_trips` loop for one train: `none` where the source
says `continue`, otherwise the appended `Trip`. -/
def tripCandidate (sa sb : Station) (after : DateTime) (train : Train) : Option Trip :=
  if calendarKeepTrips train.service_window after then
    match dlookup sa.name train.stops, dlookup sb.name train.stops with
    | some stop_a, some stop_b =>
      if stop_b.stop_number < stop_a.stop_number then none
      else if stop_a.departure.toSecs < after.time.toSecs then none
      else some ⟨stop_a.departure, stop_b.arrival, resolve_duration stop_a stop_b, train⟩
    | _, _ => none
  else none

/-- The `key=lambda x: x.departure` sort order of `next_trips`/`next_trains`. -/
def tripLE (x y : Trip) : Bool := x.departure.toSecs ≤ y.departure.toSecs

/-- `Caltrain.next_trips(a, b, after)`: resolve both endpoints, collect the
surviving trips over `self.trains`, and sort ascending by departure (Python's
stable sort is modelled by the stable `List.mergeSort`). -/
def next_trips (m : Model) (a b : StationArg) (after : DateTime) :
    Except QueryError (List Trip) :=
  match resolveArg m a with
  | .error e => .error e
  | .ok sa =>
    match resolveArg m b with
    | .error e => .error e
    | .ok sb =>
      .ok (((m.trains.map Prod.snd).filterMap (tripCandidate sa sb after)).mergeSort tripLE)

/-- The body of the `next_trains` loop for one train. -/
def trainCandidate (sa : Station) (after : DateTime) (direction : Option Direction)
    (train : Train) : Option Trip :=
  if calendarKeepTrains train.service_window after then
    match dlookup sa.name train.stops with
    | some stop_a =>
      if direction ≠ none ∧ direction ≠ some train.direction then none
      else if stop_a.departure.toSecs < after.time.toSecs then none
      else some ⟨stop_a.departure, stop_a.departure, 0, train⟩
    | none => none
  else none

/-- `Caltrain.next_trains(a, after, direction)`. -/
def next_trains (m : Model) (a : StationArg) (after : DateTime)
    (direction : Option Direction) : Except QueryError (List Trip) :=
  match resolveArg m a with
  | .error e => .error e
  | .ok sa =>
    .ok (((m.trains.map Prod.snd).filterMap (trainCandidate sa after direction)).mergeSort tripLE)

/-- `Caltrain.fare_between(a, b)`: resolve both endpoints, then
`self._fares[(a.zone, b.zone)]` — a dict `KeyError` when the ordered zone pair
is absent. -/
def fare_between (m : Model) (a b : StationArg) : Except QueryError (Nat × Nat) :=
  match resolveArg m a with
  | .error e => .error e
  | .ok sa =>
    match resolveArg m b with
    | .error e => .error e
    | .ok sb =>
      match dlookup (sa.zone, sb.zone) m.fares with
      | some fare => .ok fare
      | none => .error .keyError

/-! ### Model building: calendar exceptions (caltrain.py lines 241–260) -/

/-- A row of `calendar_dates.txt` after the loader's type coercion: the date is
already a day count (the source parses `'%Y%m%d'`); `exception_type` is kept as
the raw string, compared against `"2"` exactly as the source does. -/
structure CalendarDateRow where
  service_id : String
  date : Nat
  holiday_name : String
  exception_type : String
deriving DecidableEq, Repr

/-- The single-date `ServiceWindow` built from a calendar-exception row:
`start = end = date`, `days = {date.weekday()}`,
`removed = (exception_type == "2")`. -/
def exceptionWindow (r : CalendarDateRow) : ServiceWindow :=
  ⟨r.service_id, r.holiday_name, r.date, r.date, [dateWeekday r.date],
    r.exception_type == "2"⟩

/-- One iteration of the `calendar_dates.txt` loop: only a service id that is
`not in self._service_windows` creates a window; otherwise nothing happens. -/
def applyCalendarDate (sws : List (String × ServiceWindow)) (r : CalendarDateRow) :
    List (String × ServiceWindow) :=
  if (dlookup r.service_id sws).isSome then sws
  else dictInsert r.service_id (exceptionWindow r) sws

/-- The whole `calendar_dates.txt` loop, folded over the rows in file order. -/
def loadCalendarDates (sws : List (String × ServiceWindow))
    (rows : List CalendarDateRow) : List (String × ServiceWindow) :=
  rows.foldl applyCalendarDate sws

/-! ### Model building: stop times (caltrain.py lines 313–323) -/

/-- A row of `stop_times.txt`; arrival/departure clock strings are carried as
their three already-split integer fields (the split itself is `_resolve_time`'s
first line, verified separately via `resolve_time`). -/
structure StopTimeRow where
  trip_id : String
  arrival_time : Nat × Nat × Nat
  departure_time : Nat × Nat × Nat
  stop_id : String
  stop_sequence : Nat
deriving DecidableEq, Repr

/-- The `Stop` built from a stop-times row. -/
def mkStop (r : StopTimeRow) : Stop :=
  let a := resolveTimeParts r.arrival_time.1 r.arrival_time.2.1 r.arrival_time.2.2
  let d := resolveTimeParts r.departure_time.1 r.departure_time.2.1 r.departure_time.2.2
  ⟨a.2, a.1, d.2, d.1, r.stop_sequence⟩

/-- The `stop_times.txt` loop: for each row, look up the owning train by trip id
and the station by stop id (a miss raises `KeyError` in Python — modelled as
`none`), then bind the station's display name to the row's `Stop` in that
train's stop dict. -/
def loadStopTimes (stations : List (String × Station)) :
    List (String × Train) → List StopTimeRow → Option (List (String × Train))
  | trains, [] => some trains
  | trains, r :: rest =>
    match dlookup r.trip_id trains, dlookup r.stop_id stations with
    | some train, some station =>
      loadStopTimes stations
        (dictInsert r.trip_id
          { train with stops := dictInsert station.name (mkStop r) train.stops }
          trains)
        rest
    | _, _ => none

/-- The station display name a stop-times row resolves to
(`self.stations[stop_id].name`). -/
def rowStationName (stations : List (String × Station)) (r : StopTimeRow) :
    Option String :=
  (dlookup r.stop_id stations).map Station.name

/-! ### Spec-side definitions (named after the spec's wording, for comparison
with the source-translated definitions above) -/

/-- Spec §4.5: `inWindow = serviceWindow.start <= onDate <= serviceWindow.end
AND weekday(onDate) ∈ serviceWindow.days`. -/
def inWindowSpec (sw : ServiceWindow) (after : DateTime) : Prop :=
  sw.start ≤ after.date ∧ after.date ≤ sw.endDate ∧ after.weekday ∈ sw.days

/-- Spec §4.4 duration resolution: the signed difference between the instant
built from the end stop's **departure** day-offset plus its **arrival**
time-of-day and the instant built from the start stop's departure day-offset
plus its departure time-of-day. -/
def durationSpec (s e : Stop) : Int :=
  instantOf e.departure_day e.arrival - instantOf s.departure_day s.departure

/-- Two-digit decimal rendering of `n ≤ 99`, as in a `HH:MM:SS` clock field. -/
def pad2 (n : Nat) : List Char :=
  [Char.ofNat (48 + n / 10), Char.ofNat (48 + n % 10)]

/-- The canonical clock string `HH:MM:SS` for the given field values. -/
def clockString (hour minute second : Nat) : String :=
  ⟨pad2 hour ++ ':' :: (pad2 minute ++ ':' :: pad2 second)⟩

/-- Total version of `rowStationName` (meaningful whenever the stop id
resolves, which the success of `loadStopTimes` guarantees). -/
def rowStationKey (stations : List (String × Station)) (r : StopTimeRow) : String :=
  ((dlookup r.stop_id stations).map Station.name).getD ""

/-! ### Concrete fixtures used by witness theorems -/

/-- A weekday (Mon–Fri) base service window valid on days 0–10000. -/
def demoWindow : ServiceWindow := ⟨"wk", "Weekday", 0, 10000, [0, 1, 2, 3, 4], false⟩

/-- A station `A` in zone `1`. -/
def demoStationA : Station := ⟨"A", "1"⟩

/-- A station `B` in zone `2`. -/
def demoStationB : Station := ⟨"B", "2"⟩

/-- A northbound local train calling at `A` (06:00, stop 1) then `B`
(07:00, stop 2). -/
def demoTrain : Train :=
  ⟨"101", .local, .north,
    [("A", ⟨⟨6, 0, 0⟩, 0, ⟨6, 0, 0⟩, 0, 1⟩), ("B", ⟨⟨7, 0, 0⟩, 0, ⟨7, 0, 0⟩, 0, 2⟩)],
    demoWindow⟩

/-- A model holding only `demoTrain`. -/
def demoModel : Model := ⟨[("t1", demoTrain)], [], []⟩

/-- A query instant on day 4 (a Monday: `(4 + 3) % 7 = 0`) at 05:00. -/
def demoAfter : DateTime := ⟨4, ⟨5, 0, 0⟩⟩

/-- The trip `demoTrain` yields for a query from `A` to `B` at `demoAfter`. -/
def demoTrip : Trip := ⟨⟨6, 0, 0⟩, ⟨7, 0, 0⟩, 3600, demoTrain⟩

/-- A southbound train calling at `B` (06:00, stop 1) then `A` (07:00, stop 2):
the wrong direction for a trip from `A` to `B`. -/
def demoTrainWrongWay : Train :=
  ⟨"202", .local, .south,
    [("B", ⟨⟨6, 0, 0⟩, 0, ⟨6, 0, 0⟩, 0, 1⟩), ("A", ⟨⟨7, 0, 0⟩, 0, ⟨7, 0, 0⟩, 0, 2⟩)],
    demoWindow⟩

/-- A model holding `demoTrain` and the wrong-way `demoTrainWrongWay`. -/
def demoModelBoth : Model :=
  ⟨[("t1", demoTrain), ("t2", demoTrainWrongWay)], [], []⟩

/-- A stations table with one stop id. -/
def c10Stations : List (String × Station) := [("70011", ⟨"Palo Alto", "2"⟩)]

/-- A train with an empty stop dict, as built by phase 4 of the loader. -/
def c10Train : Train := ⟨"101", .local, .north, [], demoWindow⟩

/-- A first stop-times row for trip `t1` at stop `70011`. -/
def c10Row1 : StopTimeRow := ⟨"t1", (6, 10, 0), (6, 11, 0), "70011", 3⟩

/-- A second stop-times row for trip `t1` at the same stop `70011`. -/
def c10Row2 : StopTimeRow := ⟨"t1", (6, 20, 0), (6, 21, 0), "70011", 4⟩

/-- The train as it stands after loading `c10Row1` then `c10Row2`: only the
stop built from the later row survives. -/
def c10TrainFinal : Train :=
  ⟨"101", .local, .north, [("Palo Alto", mkStop c10Row2)], demoWindow⟩

/-! ### Helper lemmas -/

theorem dlookup_dictInsert_self {α β : Type} [DecidableEq α] (k : α) (v : β) :
    ∀ l : List (α × β), dlookup k (dictInsert k v l) = some v
  | [] => by simp [dictInsert, dlookup]
  | (k', v') :: rest => by
    by_cases h : k' = k
    · simp [dictInsert, dlookup, h]
    · simp [dictInsert, dlookup, h, dlookup_dictInsert_self k v rest]

theorem dlookup_dictInsert_ne {α β : Type} [DecidableEq α] {k k' : α} (v : β)
    (h : k' ≠ k) : ∀ l : List (α × β), dlookup k (dictInsert k' v l) = dlookup k l
  | [] => by simp [dictInsert, dlookup, h]
  | (a, b) :: rest => by
    by_cases ha : a = k'
    · simp [dictInsert, dlookup, ha, h]
    · simp only [dictInsert, if_neg ha, dlookup]
      by_cases hk : a = k
      · simp [hk]
      · simp [hk, dlookup_dictInsert_ne v h rest]

theorem mem_keys_dictInsert {α β : Type} [DecidableEq α] {x k : α} (v : β) :
    ∀ l : List (α × β), x ∈ (dictInsert k v l).map Prod.fst →
      x = k ∨ x ∈ l.map Prod.fst
  | [] => by simp [dictInsert]
  | (a, b) :: rest => by
    by_cases h : a = k
    · simp [dictInsert, h]
    · intro hx
      simp only [dictInsert, if_neg h, List.map, List.mem_cons] at hx
      rcases hx with hx | hx
      · exact Or.inr (by simp [hx])
      · rcases mem_keys_dictInsert v rest hx with hk | hk
        · exact Or.inl hk
        · exact Or.inr (by simp [hk])

theorem keys_nodup_dictInsert {α β : Type} [DecidableEq α] (k : α) (v : β) :
    ∀ l : List (α × β), (l.map Prod.fst).Nodup →
      ((dictInsert k v l).map Prod.fst).Nodup
  | [], _ => by simp [dictInsert]
  | (a, b) :: rest, h => by
    simp only [List.map, List.nodup_cons] at h
    by_cases ha : a = k
    · simpa [dictInsert, ha] using h
    · simp only [dictInsert, if_neg ha, List.map, List.nodup_cons]
      refine ⟨fun hx => ?_, keys_nodup_dictInsert k v rest h.2⟩
      rcases mem_keys_dictInsert v rest hx with hk | hk
      · exact ha hk
      · exact h.1 hk

theorem splitOnChar_append (sep : Char) :
    ∀ xs ys : List Char, sep ∉ xs →
      splitOnChar sep (xs ++ sep :: ys) = xs :: splitOnChar sep ys
  | [], ys, _ => by simp [splitOnChar]
  | c :: xs, ys, h => by
    have hc : ¬c = sep := fun hc => h (by simp [hc])
    have ih := splitOnChar_append sep xs ys (fun hx => h (List.mem_cons_of_mem _ hx))
    simp only [List.cons_append, splitOnChar, if_neg hc, List.append_eq, ih]

theorem splitOnChar_no_sep (sep : Char) :
    ∀ xs : List Char, sep ∉ xs → splitOnChar sep xs = [xs]
  | [], _ => rfl
  | c :: xs, h => by
    have hc : ¬c = sep := fun hc => h (by simp [hc])
    have ih := splitOnChar_no_sep sep xs (fun hx => h (List.mem_cons_of_mem _ hx))
    simp [splitOnChar, if_neg hc, ih]

theorem parse_pad2 {n : Nat} (h : n ≤ 99) :
    parseNatChars (pad2 n) = some n ∧ ':' ∉ pad2 n := by
  have key : ∀ i : Fin 100, parseNatChars (pad2 i.val) = some i.val ∧ ':' ∉ pad2 i.val := by
    decide
  exact key ⟨n, by omega⟩

theorem tripLE_trans (a b c : Trip) : tripLE a b → tripLE b c → tripLE a c := by
  simp only [tripLE, decide_eq_true_eq]
  omega

theorem tripLE_total (a b : Trip) : tripLE a b || tripLE b a := by
  simp only [tripLE, Bool.or_eq_true, decide_eq_true_eq]
  omega

/-! ### Claim theorems -/

/-- C2: for every clock string `HH:MM:SS` whose fields satisfy `HH ≤ 47`,
`MM ≤ 59`, `SS ≤ 59`, `_resolve_time` returns day-offset `HH / 24` together
with the time of day `(HH % 24):MM:SS`; in particular `"25:30:00"` resolves to
day-offset 1 and time 01:30:00. -/
theorem c2_resolve_time :
    (∀ hour minute second : Nat, hour ≤ 47 → minute ≤ 59 → second ≤ 59 →
      resolve_time (clockString hour minute second) =
        some (hour / 24, ⟨hour % 24, minute, second⟩)) ∧
    resolve_time "25:30:00" = some (1, ⟨1, 30, 0⟩) := by
  constructor
  · intro hour minute second hh hm hs
    have ph := parse_pad2 (show hour ≤ 99 by omega)
    have pm := parse_pad2 (show minute ≤ 99 by omega)
    have ps := parse_pad2 (show second ≤ 99 by omega)
    have hsplit : splitOnChar ':' (clockString hour minute second).data
        = [pad2 hour, pad2 minute, pad2 second] := by
      show splitOnChar ':' (pad2 hour ++ ':' :: (pad2 minute ++ ':' :: pad2 second)) = _
      rw [splitOnChar_append _ _ _ ph.2, splitOnChar_append _ _ _ pm.2,
        splitOnChar_no_sep _ _ ps.2]
    unfold resolve_time
    rw [hsplit]
    simp only [List.map, ph.1, pm.1, ps.1]
    show some (resolveTimeParts hour minute second) = _
    unfold resolveTimeParts timeOfSecs
    simp only [Option.some.injEq, Prod.mk.injEq, Time.mk.injEq]
    refine ⟨by trivial, ?_, ?_, ?_⟩ <;> omega
  · decide

/-- Witness for C2 at the spec's own example `"25:30:00"`. -/
theorem c2_resolve_time_witness :
    resolve_time (clockString 25 30 0) = some (25 / 24, ⟨25 % 24, 30, 0⟩) :=
  c2_resolve_time.1 25 30 0 (by decide) (by decide) (by decide)

/-- C3: `_resolve_duration` is exactly the spec's duration rule — the
destination instant is built from the end stop's departure day-offset combined
with its arrival time-of-day; concretely it differs from the variant built
from the arrival day-offset on a stop whose two day-offsets differ. -/
theorem c3_resolve_duration :
    (∀ s e : Stop, resolve_duration s e = durationSpec s e) ∧
    resolve_duration ⟨⟨0, 0, 0⟩, 0, ⟨0, 0, 0⟩, 0, 1⟩ ⟨⟨1, 0, 0⟩, 1, ⟨2, 0, 0⟩, 0, 2⟩ ≠
      instantOf 1 ⟨1, 0, 0⟩ - instantOf 0 ⟨0, 0, 0⟩ := by
  constructor
  · intro s e
    rfl
  · decide

/-- Counterexample to C5: the two inputs do **not** sanitize to the same key —
`_sanitize_name` removes only the substring `"station"`, never `"caltrain"`. -/
theorem c5_counterexample :
    sanitize "Palo Alto Caltrain Station" ≠ sanitize "PALO-ALTO" ∧
    sanitize "Palo Alto Caltrain Station" = "paloaltocaltrain" ∧
    sanitize "PALO-ALTO" = "paloalto" := by
  refine ⟨by decide, by decide, by decide⟩

/-- C5 (amended): `sanitize("Palo Alto Station")` and `sanitize("PALO-ALTO")`
produce the same sanitized key, and resolving either input through alias
resolution followed by station lookup yields the same Station in every model
(a failed lookup raises `UnknownStationError` carrying the original input for
either, so only success results are comparable). -/
theorem c5_amended :
    sanitize "Palo Alto Station" = sanitize "PALO-ALTO" ∧
    ∀ (m : Model) (st : Station),
      get_station m "Palo Alto Station" = .ok st ↔ get_station m "PALO-ALTO" = .ok st := by
  refine ⟨by decide, fun m st => ?_⟩
  unfold get_station
  have h : aliasResolve (sanitize "Palo Alto Station")
      = aliasResolve (sanitize "PALO-ALTO") := by decide
  rw [h]
  cases hd : dlookup (aliasResolve (sanitize "PALO-ALTO")) m.unambiguousStations <;> simp

/-- C6: `fare_between` resolves both endpoints and returns exactly the fare
stored for the ordered zone pair, raising the dict `KeyError` whenever that
exact ordered pair is absent (the quantification over all models covers fare
tables containing only the reversed pair, which is never consulted). -/
theorem c6_fare_between : ∀ (m : Model) (a b : StationArg) (sa sb : Station),
    resolveArg m a = .ok sa → resolveArg m b = .ok sb →
    (∀ fare, dlookup (sa.zone, sb.zone) m.fares = some fare →
      fare_between m a b = .ok fare) ∧
    (dlookup (sa.zone, sb.zone) m.fares = none →
      fare_between m a b = .error .keyError) := by
  intro m a b sa sb ha hb
  have key : fare_between m a b =
      (match dlookup (sa.zone, sb.zone) m.fares with
        | some fare => Except.ok fare
        | none => Except.error QueryError.keyError) := by
    unfold fare_between
    rw [ha, hb]
  constructor
  · intro fare hf
    rw [key, hf]
  · intro hn
    rw [key, hn]

/-- Witness for C6: a fare table holding only the reversed zone pair
`("2", "1")` still yields `KeyError` for the queried pair `("1", "2")`. -/
theorem c6_fare_between_witness :
    fare_between ⟨[], [], [(("2", "1"), (3, 75))]⟩
        (.inl ⟨"A", "1"⟩) (.inl ⟨"B", "2"⟩) = .error .keyError :=
  (c6_fare_between ⟨[], [], [(("2", "1"), (3, 75))]⟩ (.inl ⟨"A", "1"⟩)
    (.inl ⟨"B", "2"⟩) ⟨"A", "1"⟩ ⟨"B", "2"⟩ rfl rfl).2 (by decide)

/-- Counterexample to C9: on stops whose arrival instant precedes the departure
instant, `_resolve_duration` silently returns the negative difference — it is a
total function with no fault path. -/
theorem c9_counterexample :
    resolve_duration ⟨⟨0, 0, 0⟩, 0, ⟨1, 0, 0⟩, 0, 1⟩ ⟨⟨0, 0, 0⟩, 0, ⟨0, 0, 0⟩, 0, 2⟩
      = -3600 := by decide

/-- C9 (amended): whenever the computed arrival instant precedes the computed
departure instant, `_resolve_duration` returns a strictly negative duration —
the value is passed through signed and unclamped; detecting the fault is left
to the caller. -/
theorem c9_amended : ∀ s e : Stop,
    instantOf e.departure_day e.arrival < instantOf s.departure_day s.departure →
    resolve_duration s e < 0 := by
  intro s e h
  unfold resolve_duration
  omega

/-- Witness for C9 (amended) on a concrete negative-duration pair of stops. -/
theorem c9_amended_witness :
    instantOf 0 ⟨0, 0, 0⟩ < instantOf 0 ⟨1, 0, 0⟩ ∧
    resolve_duration ⟨⟨0, 0, 0⟩, 0, ⟨1, 0, 0⟩, 0, 1⟩ ⟨⟨0, 0, 0⟩, 0, ⟨0, 0, 0⟩, 0, 2⟩ < 0 :=
  ⟨by decide, c9_amended _ _ (by decide)⟩

theorem loadCalendarDates_existing (sid : String) (w : ServiceWindow) :
    ∀ (rows : List CalendarDateRow) (sws), dlookup sid sws = some w →
      dlookup sid (loadCalendarDates sws rows) = some w
  | [], _, h => h
  | r :: rest, sws, h => by
    show dlookup sid (loadCalendarDates (applyCalendarDate sws r) rest) = some w
    apply loadCalendarDates_existing sid w rest
    unfold applyCalendarDate
    by_cases hp : (dlookup r.service_id sws).isSome = true
    · rw [if_pos hp]
      exact h
    · rw [if_neg hp]
      have hne : r.service_id ≠ sid := by
        intro he
        exact hp (by rw [he, h]; rfl)
      rw [dlookup_dictInsert_ne _ hne]
      exact h

theorem loadCalendarDates_fresh (sid : String) :
    ∀ (rows : List CalendarDateRow) (sws), dlookup sid sws = none →
      dlookup sid (loadCalendarDates sws rows) =
        (rows.find? (fun r => r.service_id == sid)).map exceptionWindow
  | [], _, h => by simpa using h
  | r :: rest, sws, h => by
    show dlookup sid (loadCalendarDates (applyCalendarDate sws r) rest) = _
    by_cases he : r.service_id = sid
    · have hp : ¬((dlookup r.service_id sws).isSome = true) := by
        rw [he, h]
        simp
      have hstep : applyCalendarDate sws r
          = dictInsert r.service_id (exceptionWindow r) sws := by
        unfold applyCalendarDate
        rw [if_neg hp]
      have hins : dlookup sid (dictInsert r.service_id (exceptionWindow r) sws)
          = some (exceptionWindow r) := by
        rw [he]
        exact dlookup_dictInsert_self _ _ _
      rw [hstep, loadCalendarDates_existing sid (exceptionWindow r) rest _ hins,
        List.find?_cons_of_pos _ (by simp [he])]
      rfl
    · have hafter : dlookup sid (applyCalendarDate sws r) = none := by
        unfold applyCalendarDate
        by_cases hp : (dlookup r.service_id sws).isSome = true
        · rw [if_pos hp]
          exact h
        · rw [if_neg hp, dlookup_dictInsert_ne _ he]
          exact h
      rw [loadCalendarDates_fresh sid rest _ hafter,
        List.find?_cons_of_neg _ (by simp [he])]

/-- C1: the three query paths apply one and the same service-window filter; a
window with `removed = false` keeps the train iff `inWindow` holds, a window
with `removed = true` drops the train iff `inWindow` holds; consequently a
train whose only window is a removed single-date exception is dropped exactly
on that date and kept on every other; and `get_trains` returns exactly the
trains passing the name check plus this filter. -/
theorem c1_calendar_filter : ∀ (sw : ServiceWindow) (after : DateTime),
    (calendarKeepTrips sw after = calendarKeepTrains sw after ∧
      calendarKeepTrains sw after = calendarKeepGet sw after) ∧
    (sw.removed = false → (calendarKeepTrips sw after = true ↔ inWindowSpec sw after)) ∧
    (sw.removed = true → (calendarKeepTrips sw after = false ↔ inWindowSpec sw after)) ∧
    (∀ i n d, calendarKeepTrips ⟨i, n, d, d, [dateWeekday d], true⟩ after = false ↔
      after.date = d) ∧
    (∀ (m : Model) (name : String) (train : Train),
      train ∈ get_trains m name after ↔
        train ∈ m.trains.map Prod.snd ∧ train.name = name ∧
          calendarKeepGet train.service_window after = true) := by
  intro sw after
  refine ⟨⟨rfl, rfl⟩, ?_, ?_, ?_, ?_⟩
  · intro hr
    simp [calendarKeepTrips, inWindowSpec, hr, and_assoc]
  · intro hr
    simp [calendarKeepTrips, inWindowSpec, hr, and_assoc]
  · intro i n d
    simp [calendarKeepTrips, DateTime.weekday]
    constructor
    · intro h
      omega
    · intro h
      subst h
      simp
  · intro m name train
    simp only [get_trains, List.mem_filter, Bool.and_eq_true, beq_iff_eq]

/-- Witness for C1: the Monday 05:00 query instant falls inside the weekday
base window (`removed = false`, kept), and a removed exception for day 5 drops
the train exactly on day 5. -/
theorem c1_calendar_filter_witness :
    calendarKeepTrips demoWindow demoAfter = true ∧
    calendarKeepTrips ⟨"hol", "Holiday", 5, 5, [dateWeekday 5], true⟩ ⟨5, ⟨9, 0, 0⟩⟩ = false :=
  ⟨((c1_calendar_filter demoWindow demoAfter).2.1 rfl).mpr
      (by unfold inWindowSpec; decide),
    ((c1_calendar_filter demoWindow ⟨5, ⟨9, 0, 0⟩⟩).2.2.2.1 "hol" "Holiday" 5).mpr rfl⟩

/-- C8: an exception row whose service id already has a window leaves the
window table entirely unchanged; a row with a fresh service id creates the
single-date window (`start = end = date`, `days = {weekday}`,
`removed ↔ exception_type = "2"`); over a whole file, an id present in the
base calendar keeps its base window, and a fresh id gets the window of its
first exception row. -/
theorem c8_calendar_exceptions :
    (∀ (sws : List (String × ServiceWindow)) (r : CalendarDateRow),
      (dlookup r.service_id sws).isSome → applyCalendarDate sws r = sws) ∧
    (∀ (sws : List (String × ServiceWindow)) (r : CalendarDateRow),
      dlookup r.service_id sws = none →
        applyCalendarDate sws r = dictInsert r.service_id (exceptionWindow r) sws) ∧
    (∀ (sws : List (String × ServiceWindow)) (rows : List CalendarDateRow)
      (sid : String) (w : ServiceWindow), dlookup sid sws = some w →
        dlookup sid (loadCalendarDates sws rows) = some w) ∧
    (∀ (sws : List (String × ServiceWindow)) (rows : List CalendarDateRow)
      (sid : String), dlookup sid sws = none →
        dlookup sid (loadCalendarDates sws rows) =
          (rows.find? (fun r => r.service_id == sid)).map exceptionWindow) := by
  refine ⟨?_, ?_, ?_, ?_⟩
  · intro sws r hp
    unfold applyCalendarDate
    rw [if_pos hp]
  · intro sws r hn
    unfold applyCalendarDate
    rw [if_neg (by simp [hn])]
  · intro sws rows sid w h
    exact loadCalendarDates_existing sid w rows sws h
  · intro sws rows sid h
    exact loadCalendarDates_fresh sid rows sws h

/-- Witness for C8: starting from an empty window table, two exception rows for
the same fresh service id yield exactly the single-date window of the first
row (the second is dropped because the id is then already present). -/
theorem c8_calendar_exceptions_witness :
    dlookup "hol" (loadCalendarDates []
        [⟨"hol", 5, "Thanksgiving", "2"⟩, ⟨"hol", 6, "Christmas", "1"⟩]) =
      (([⟨"hol", 5, "Thanksgiving", "2"⟩, ⟨"hol", 6, "Christmas", "1"⟩] :
          List CalendarDateRow).find? (fun r => r.service_id == "hol")).map
        exceptionWindow :=
  c8_calendar_exceptions.2.2.2 []
    [⟨"hol", 5, "Thanksgiving", "2"⟩, ⟨"hol", 6, "Christmas", "1"⟩] "hol" rfl

theorem next_trips_resolve_a (m : Model) (a b : StationArg) (after : DateTime)
    (e : QueryError) (ha : resolveArg m a = .error e) :
    next_trips m a b after = .error e := by
  unfold next_trips
  rw [ha]

theorem next_trips_resolve_b (m : Model) (a b : StationArg) (after : DateTime)
    (sa : Station) (e : QueryError) (ha : resolveArg m a = .ok sa)
    (hb : resolveArg m b = .error e) : next_trips m a b after = .error e := by
  unfold next_trips
  rw [ha, hb]

theorem next_trips_ok (m : Model) (a b : StationArg) (after : DateTime)
    (sa sb : Station) (ha : resolveArg m a = .ok sa) (hb : resolveArg m b = .ok sb) :
    next_trips m a b after =
      .ok (((m.trains.map Prod.snd).filterMap (tripCandidate sa sb after)).mergeSort tripLE) := by
  unfold next_trips
  rw [ha, hb]

/-- Every trip surviving the `next_trips` loop departs no earlier than the
query time, and its two stop lookups succeed in the right order. -/
theorem tripCandidate_inv (sa sb : Station) (after : DateTime) (train : Train)
    (t : Trip) (hc : tripCandidate sa sb after train = some t) :
    t.train = train ∧ after.time.toSecs ≤ t.departure.toSecs ∧
    ∃ pa pb, dlookup sa.name train.stops = some pa ∧
      dlookup sb.name train.stops = some pb ∧
      pa.stop_number ≤ pb.stop_number ∧ t.departure = pa.departure := by
  unfold tripCandidate at hc
  split at hc
  · split at hc
    · next stop_a stop_b hA hB =>
      split at hc
      · exact Option.noConfusion hc
      · split at hc
        · exact Option.noConfusion hc
        · next hdir hdep =>
          injection hc with hc
          subst hc
          refine ⟨rfl, by simpa using Nat.le_of_not_lt hdep, stop_a, stop_b, hA, hB,
            Nat.le_of_not_lt hdir, rfl⟩
    · exact Option.noConfusion hc
  · exact Option.noConfusion hc

/-- C4: every trip returned by `next_trips` has a departure time-of-day no
earlier than `after`'s time-of-day, and the returned list is sorted ascending
by departure time-of-day. -/
theorem c4_next_trips_sorted : ∀ (m : Model) (a b : StationArg) (after : DateTime)
    (ts : List Trip), next_trips m a b after = .ok ts →
    (∀ t ∈ ts, after.time.toSecs ≤ t.departure.toSecs) ∧
    ts.Pairwise (fun x y => x.departure.toSecs ≤ y.departure.toSecs) := by
  intro m a b after ts h
  cases ha : resolveArg m a with
  | error e =>
    rw [next_trips_resolve_a m a b after e ha] at h
    exact Except.noConfusion h
  | ok sa =>
    cases hb : resolveArg m b with
    | error e =>
      rw [next_trips_resolve_b m a b after sa e ha hb] at h
      exact Except.noConfusion h
    | ok sb =>
      rw [next_trips_ok m a b after sa sb ha hb] at h
      injection h with h
      subst h
      constructor
      · intro t ht
        rw [List.mem_mergeSort] at ht
        obtain ⟨train, _, hc⟩ := List.mem_filterMap.mp ht
        exact (tripCandidate_inv sa sb after train t hc).2.1
      · exact (@List.sorted_mergeSort Trip tripLE tripLE_trans tripLE_total _).imp
          (fun hab => by simpa [tripLE] using hab)

/-- Witness for C4 on a one-train model: the single returned trip departs at
06:00, not earlier than the 05:00 query time. -/
theorem c4_next_trips_sorted_witness :
    demoAfter.time.toSecs ≤ demoTrip.departure.toSecs := by
  have hfm : (demoModel.trains.map Prod.snd).filterMap
      (tripCandidate demoStationA demoStationB demoAfter) = [demoTrip] := by decide
  have hok : next_trips demoModel (.inl demoStationA) (.inl demoStationB) demoAfter
      = .ok [demoTrip] := by
    rw [next_trips_ok demoModel (.inl demoStationA) (.inl demoStationB) demoAfter
      demoStationA demoStationB rfl rfl, hfm, List.mergeSort_singleton]
  exact (c4_next_trips_sorted demoModel (.inl demoStationA) (.inl demoStationB)
    demoAfter [demoTrip] hok).1 demoTrip (List.mem_singleton.mpr rfl)

/-- C7: every trip returned by `next_trips` comes from a train whose stop at
the origin has a stop sequence number not exceeding the one at the
destination — a train serving both stations in the wrong order is excluded. -/
theorem c7_next_trips_direction : ∀ (m : Model) (a b : StationArg) (after : DateTime)
    (ts : List Trip) (sa sb : Station) (t : Trip),
    resolveArg m a = .ok sa → resolveArg m b = .ok sb →
    next_trips m a b after = .ok ts → t ∈ ts →
    ∃ pa pb, dlookup sa.name t.train.stops = some pa ∧
      dlookup sb.name t.train.stops = some pb ∧ pa.stop_number ≤ pb.stop_number := by
  intro m a b after ts sa sb t ha hb h ht
  rw [next_trips_ok m a b after sa sb ha hb] at h
  injection h with h
  subst h
  rw [List.mem_mergeSort] at ht
  obtain ⟨train, _, hc⟩ := List.mem_filterMap.mp ht
  obtain ⟨htr, _, pa, pb, hA, hB, hle, _⟩ := tripCandidate_inv sa sb after train t hc
  exact ⟨pa, pb, by rw [htr]; exact hA, by rw [htr]; exact hB, hle⟩

/-- Witness for C7 on a two-train model containing a wrong-direction train:
the only returned trip is the right-direction one, and its stop numbers are
ordered. -/
theorem c7_next_trips_direction_witness :
    ∃ pa pb, dlookup "A" demoTrip.train.stops = some pa ∧
      dlookup "B" demoTrip.train.stops = some pb ∧ pa.stop_number ≤ pb.stop_number := by
  have hfm : (demoModelBoth.trains.map Prod.snd).filterMap
      (tripCandidate demoStationA demoStationB demoAfter) = [demoTrip] := by decide
  have hok : next_trips demoModelBoth (.inl demoStationA) (.inl demoStationB) demoAfter
      = .ok [demoTrip] := by
    rw [next_trips_ok demoModelBoth (.inl demoStationA) (.inl demoStationB) demoAfter
      demoStationA demoStationB rfl rfl, hfm, List.mergeSort_singleton]
  exact c7_next_trips_direction demoModelBoth (.inl demoStationA) (.inl demoStationB)
    demoAfter [demoTrip] demoStationA demoStationB demoTrip rfl rfl hok
    (List.mem_singleton.mpr rfl)

theorem dlookup_foldl_dictInsert (key : StopTimeRow → String) (val : StopTimeRow → Stop) :
    ∀ (rs : List StopTimeRow) (d0 : List (String × Stop)) (name : String),
      dlookup name (rs.foldl (fun d r => dictInsert (key r) (val r) d) d0) =
        match (rs.filter (fun r => key r == name)).getLast? with
        | some r => some (val r)
        | none => dlookup name d0
  | [], _, _ => rfl
  | r :: rs, d0, name => by
    show dlookup name (rs.foldl _ (dictInsert (key r) (val r) d0)) = _
    rw [dlookup_foldl_dictInsert key val rs]
    by_cases hk : (key r == name) = true
    · rw [show List.filter (fun x => key x == name) (r :: rs)
          = r :: List.filter (fun x => key x == name) rs from List.filter_cons_of_pos hk]
      have hkey : key r = name := by simpa using hk
      cases hfl : rs.filter (fun r => key r == name) with
      | nil =>
        show dlookup name (dictInsert (key r) (val r) d0) = some (val r)
        rw [hkey, dlookup_dictInsert_self]
      | cons x xs =>
        rw [List.getLast?_cons_cons]
        cases hg : (x :: xs).getLast? with
        | some y => rfl
        | none => simp at hg
    · rw [show List.filter (fun x => key x == name) (r :: rs)
          = List.filter (fun x => key x == name) rs from List.filter_cons_of_neg hk]
      have hne : key r ≠ name := by simpa using hk
      cases rs.filter (fun r => key r == name) with
      | nil =>
        show dlookup name (dictInsert (key r) (val r) d0) = dlookup name d0
        rw [dlookup_dictInsert_ne _ hne]
      | cons x xs => rfl

theorem keys_nodup_foldl_dictInsert (key : StopTimeRow → String) (val : StopTimeRow → Stop) :
    ∀ (rs : List StopTimeRow) (d0 : List (String × Stop)),
      (d0.map Prod.fst).Nodup →
      ((rs.foldl (fun d r => dictInsert (key r) (val r) d) d0).map Prod.fst).Nodup
  | [], _, h => h
  | _ :: rs, _, h =>
    keys_nodup_foldl_dictInsert key val rs _ (keys_nodup_dictInsert _ _ _ h)

/-- Successful stop-times loading rewrites each train's stop dict as a fold of
its own rows (in file order) over its initial stop dict. -/
theorem loadStopTimes_stops (stations : List (String × Station)) (tid : String) :
    ∀ (rows : List StopTimeRow) (trains m : List (String × Train)) (t0 : Train),
      loadStopTimes stations trains rows = some m →
      dlookup tid trains = some t0 →
      ∃ t, dlookup tid m = some t ∧
        t.stops = (rows.filter (fun r => r.trip_id == tid)).foldl
          (fun d r => dictInsert (rowStationKey stations r) (mkStop r) d) t0.stops
  | [], trains, m, t0, hl, ht => by
    have hm : trains = m := by
      injection hl
    subst hm
    exact ⟨t0, ht, rfl⟩
  | r :: rest, trains, m, t0, hl, ht => by
    cases hTr : dlookup r.trip_id trains with
    | none =>
      rw [loadStopTimes, hTr] at hl
      exact Option.noConfusion hl
    | some train =>
      cases hSt : dlookup r.stop_id stations with
      | none =>
        rw [loadStopTimes, hTr, hSt] at hl
        exact Option.noConfusion hl
      | some station =>
        rw [loadStopTimes, hTr, hSt] at hl
        have hname : rowStationKey stations r = station.name := by
          simp [rowStationKey, hSt]
        by_cases he : r.trip_id = tid
        · subst he
          have ht0 : train = t0 := by
            rw [hTr] at ht
            injection ht
          subst ht0
          obtain ⟨t, htm, hstops⟩ := loadStopTimes_stops stations r.trip_id rest _ m
            { train with stops := dictInsert station.name (mkStop r) train.stops }
            hl (dlookup_dictInsert_self _ _ _)
          refine ⟨t, htm, ?_⟩
          rw [hstops, List.filter_cons_of_pos (by simp), List.foldl_cons, hname]
        · obtain ⟨t, htm, hstops⟩ := loadStopTimes_stops stations tid rest _ m t0 hl
            (by rw [dlookup_dictInsert_ne _ he]; exact ht)
          refine ⟨t, htm, ?_⟩
          rw [hstops, List.filter_cons_of_neg (by simp [he])]

/-- C10: after a successful stop-times load, a train that started with an
empty stop dict maps each station display name to at most one stop (its keys
are pairwise distinct), and the stop bound to a name is exactly the one built
from the **last** row of the file for that trip id resolving to that name —
all earlier such rows are overwritten. -/
theorem c10_stop_times_last_wins :
    ∀ (stations : List (String × Station)) (trains : List (String × Train))
      (rows : List StopTimeRow) (m : List (String × Train)) (tid : String)
      (t0 t : Train),
      loadStopTimes stations trains rows = some m →
      dlookup tid trains = some t0 → t0.stops = [] →
      dlookup tid m = some t →
      (t.stops.map Prod.fst).Nodup ∧
      ∀ name, dlookup name t.stops =
        ((rows.filter (fun r => rowStationKey stations r == name
            && (r.trip_id == tid))).getLast?).map mkStop := by
  intro stations trains rows m tid t0 t hl ht h0 htm
  obtain ⟨t', htm', hstops⟩ := loadStopTimes_stops stations tid rows trains m t0 hl ht
  have htt : t' = t := by
    rw [htm] at htm'
    injection htm' with h
    exact h.symm
  subst htt
  constructor
  · rw [hstops]
    exact keys_nodup_foldl_dictInsert _ _ _ _ (by rw [h0]; exact List.nodup_nil)
  · intro name
    rw [hstops, dlookup_foldl_dictInsert, ← List.filter_filter]
    cases ((rows.filter (fun r => r.trip_id == tid)).filter
        (fun r => rowStationKey stations r == name)).getLast? with
    | some r => rfl
    | none =>
      rw [h0]
      rfl

/-- Witness for C10: two rows of the same trip hitting the same station leave
only the stop built from the second row. -/
theorem c10_stop_times_last_wins_witness :
    dlookup "Palo Alto" c10TrainFinal.stops =
      (([c10Row1, c10Row2].filter (fun r => rowStationKey c10Stations r == "Palo Alto"
          && (r.trip_id == "t1"))).getLast?).map mkStop :=
  (c10_stop_times_last_wins c10Stations [("t1", c10Train)] [c10Row1, c10Row2]
    [("t1", c10TrainFinal)] "t1" c10Train c10TrainFinal (by decide) (by decide) rfl
    (by decide)).2 "Palo Alto"

end PyCaltrain
